import Mathlib

/-!
# Verification development for the CanvasCrawler simulation core

Shallow embedding of the TypeScript sources of the CanvasCrawler repository
(`src/utils/Vector2.ts`, `src/core/Collision.ts`, `src/core/Game.ts`,
`src/entities/Player.ts`, `src/entities/Enemy.ts` (the state-machine version),
`src/entities/Particle.ts`, `src/entities/Projectile.ts`) together with proofs
of the spec's claims about them.

Numeric conventions: JavaScript numbers are embedded as exact rationals (ℚ)
wherever the source performs only field arithmetic, comparisons, `min`/`max`
and absolute values; the handful of places that need `Math.sqrt`, `Math.cos`,
`Math.sin` are embedded over ℝ (`Vector2.normalize`) or in exact polar form
(`Particle.burst`, where the source itself computes a scalar angle before
converting to cartesian coordinates).
-/

namespace CanvasCrawler

/-- Embeds `Vector2` (src/utils/Vector2.ts) restricted to its rational
operations; `normalize`, which divides by the real square root
`Math.sqrt(x*x + y*y)`, is embedded separately over ℝ below. -/
structure Vec2 where
  x : ℚ
  y : ℚ
deriving DecidableEq, Repr

namespace Vec2

/-- Embeds `Vector2.add`. -/
def add (v w : Vec2) : Vec2 := ⟨v.x + w.x, v.y + w.y⟩

/-- Embeds `Vector2.subtract`. -/
def subtract (v w : Vec2) : Vec2 := ⟨v.x - w.x, v.y - w.y⟩

/-- Embeds `Vector2.multiply` (scalar multiplication). -/
def multiply (v : Vec2) (s : ℚ) : Vec2 := ⟨v.x * s, v.y * s⟩

end Vec2

/-- The axis-aligned rectangle data shared by every `Entity`
(src/entities/Entity.ts): `position`, `width`, `height`.  The collision
routines of src/core/Collision.ts read exactly these fields. -/
structure Box where
  x : ℚ
  y : ℚ
  w : ℚ
  h : ℚ
deriving DecidableEq, Repr

namespace Collision

/-- Embeds `Collision.checkAABB` (src/core/Collision.ts, lines 12-19):
strict AABB overlap test. -/
def checkAABB (a b : Box) : Bool :=
  decide (a.x < b.x + b.w ∧ a.x + a.w > b.x ∧ a.y < b.y + b.h ∧ a.y + a.h > b.y)

/-- Embeds `Collision.resolveWallCollision` (src/core/Collision.ts, lines
51-78).  The source mutates `entity.position`; the embedding returns the
corrected box together with the boolean result. -/
def resolveWallCollision (entity wall : Box) : Box × Bool :=
  if checkAABB entity wall = false then (entity, false)
  else
    let entityRight := entity.x + entity.w
    let entityBottom := entity.y + entity.h
    let wallRight := wall.x + wall.w
    let wallBottom := wall.y + wall.h
    let overlapLeft := entityRight - wall.x
    let overlapRight := wallRight - entity.x
    let overlapTop := entityBottom - wall.y
    let overlapBottom := wallBottom - entity.y
    let minOverlapX := if overlapLeft < overlapRight then -overlapLeft else overlapRight
    let minOverlapY := if overlapTop < overlapBottom then -overlapTop else overlapBottom
    if |minOverlapX| < |minOverlapY| then
      ({ entity with x := entity.x + minOverlapX }, true)
    else
      ({ entity with y := entity.y + minOverlapY }, true)

/-- The X-axis penetration depth of `entity` into `wall` in the spec's
formulation `min(entityFarEdge − obstacleNearEdge, obstacleFarEdge −
entityNearEdge)`; used to state claims about `resolveWallCollision`. -/
def penX (entity wall : Box) : ℚ :=
  min (entity.x + entity.w - wall.x) (wall.x + wall.w - entity.x)

/-- The Y-axis penetration depth of `entity` into `wall`, the spec's
`min(entityFarEdge − obstacleNearEdge, obstacleFarEdge − entityNearEdge)`
on the vertical axis. -/
def penY (entity wall : Box) : ℚ :=
  min (entity.y + entity.h - wall.y) (wall.y + wall.h - entity.y)

/-- The four positive edge overlaps computed by `resolveWallCollision` when the
boxes overlap. -/
theorem overlaps_pos (e w : Box) (h : checkAABB e w = true) :
    0 < e.x + e.w - w.x ∧ 0 < w.x + w.w - e.x ∧
    0 < e.y + e.h - w.y ∧ 0 < w.y + w.h - e.y := by
  have h' := of_decide_eq_true h
  obtain ⟨h1, h2, h3, h4⟩ := h'
  constructor
  · linarith
  constructor
  · linarith
  constructor
  · linarith
  · linarith

/-- C1 (amended): when `resolveWallCollision` applies a correction to an
overlapping entity, it pushes the entity out along only the axis whose
absolute penetration is strictly smaller; when the absolute penetrations on
the two axes are equal it pushes along the Y axis (not the X axis as the
original claim states). -/
theorem resolveWallCollision_pushes_smaller_axis (e w : Box)
    (h : checkAABB e w = true) :
    (penX e w < penY e w →
      (resolveWallCollision e w).1.y = e.y ∧
      |(resolveWallCollision e w).1.x - e.x| = penX e w) ∧
    (penY e w ≤ penX e w →
      (resolveWallCollision e w).1.x = e.x ∧
      |(resolveWallCollision e w).1.y - e.y| = penY e w) := by
  obtain ⟨pL, pR, pT, pB⟩ := overlaps_pos e w h
  unfold resolveWallCollision
  rw [h]
  simp only [Bool.true_eq_false, if_false]
  rcases lt_or_le (e.x + e.w - w.x) (w.x + w.w - e.x) with hx | hx <;>
    rcases lt_or_le (e.y + e.h - w.y) (w.y + w.h - e.y) with hy | hy
  · have hpX : penX e w = e.x + e.w - w.x := min_eq_left (le_of_lt hx)
    have hpY : penY e w = e.y + e.h - w.y := min_eq_left (le_of_lt hy)
    rw [if_pos hx, if_pos hy, abs_neg, abs_neg, abs_of_pos pL, abs_of_pos pT]
    split_ifs with hlt
    · refine ⟨fun _ => ⟨rfl, ?_⟩, fun hle => ?_⟩
      · have hr : e.x + -(e.x + e.w - w.x) - e.x = -(e.x + e.w - w.x) := by ring
        rw [hr, abs_neg, abs_of_pos pL, hpX]
      · rw [hpX, hpY] at hle; linarith
    · refine ⟨fun hx2 => ?_, fun _ => ⟨rfl, ?_⟩⟩
      · rw [hpX, hpY] at hx2; exact absurd hx2 hlt
      · have hr : e.y + -(e.y + e.h - w.y) - e.y = -(e.y + e.h - w.y) := by ring
        rw [hr, abs_neg, abs_of_pos pT, hpY]
  · have hpX : penX e w = e.x + e.w - w.x := min_eq_left (le_of_lt hx)
    have hpY : penY e w = w.y + w.h - e.y := min_eq_right hy
    rw [if_pos hx, if_neg (not_lt.mpr hy), abs_neg, abs_of_pos pL, abs_of_pos pB]
    split_ifs with hlt
    · refine ⟨fun _ => ⟨rfl, ?_⟩, fun hle => ?_⟩
      · have hr : e.x + -(e.x + e.w - w.x) - e.x = -(e.x + e.w - w.x) := by ring
        rw [hr, abs_neg, abs_of_pos pL, hpX]
      · rw [hpX, hpY] at hle; linarith
    · refine ⟨fun hx2 => ?_, fun _ => ⟨rfl, ?_⟩⟩
      · rw [hpX, hpY] at hx2; exact absurd hx2 hlt
      · have hr : e.y + (w.y + w.h - e.y) - e.y = w.y + w.h - e.y := by ring
        rw [hr, abs_of_pos pB, hpY]
  · have hpX : penX e w = w.x + w.w - e.x := min_eq_right hx
    have hpY : penY e w = e.y + e.h - w.y := min_eq_left (le_of_lt hy)
    rw [if_neg (not_lt.mpr hx), if_pos hy, abs_neg, abs_of_pos pR, abs_of_pos pT]
    split_ifs with hlt
    · refine ⟨fun _ => ⟨rfl, ?_⟩, fun hle => ?_⟩
      · have hr : e.x + (w.x + w.w - e.x) - e.x = w.x + w.w - e.x := by ring
        rw [hr, abs_of_pos pR, hpX]
      · rw [hpX, hpY] at hle; linarith
    · refine ⟨fun hx2 => ?_, fun _ => ⟨rfl, ?_⟩⟩
      · rw [hpX, hpY] at hx2; exact absurd hx2 hlt
      · have hr : e.y + -(e.y + e.h - w.y) - e.y = -(e.y + e.h - w.y) := by ring
        rw [hr, abs_neg, abs_of_pos pT, hpY]
  · have hpX : penX e w = w.x + w.w - e.x := min_eq_right hx
    have hpY : penY e w = w.y + w.h - e.y := min_eq_right hy
    rw [if_neg (not_lt.mpr hx), if_neg (not_lt.mpr hy), abs_of_pos pR, abs_of_pos pB]
    split_ifs with hlt
    · refine ⟨fun _ => ⟨rfl, ?_⟩, fun hle => ?_⟩
      · have hr : e.x + (w.x + w.w - e.x) - e.x = w.x + w.w - e.x := by ring
        rw [hr, abs_of_pos pR, hpX]
      · rw [hpX, hpY] at hle; linarith
    · refine ⟨fun hx2 => ?_, fun _ => ⟨rfl, ?_⟩⟩
      · rw [hpX, hpY] at hx2; exact absurd hx2 hlt
      · have hr : e.y + (w.y + w.h - e.y) - e.y = w.y + w.h - e.y := by ring
        rw [hr, abs_of_pos pB, hpY]

/-- C1 counterexample: an entity and wall with equal absolute penetration on
the two axes for which `resolveWallCollision` leaves the X coordinate
unchanged and moves the entity along the Y axis, refuting the claim that
ties are pushed along the X axis. -/
theorem resolveWallCollision_tie_pushes_y :
    penX ⟨0, 0, 10, 10⟩ ⟨5, 5, 10, 10⟩ = penY ⟨0, 0, 10, 10⟩ ⟨5, 5, 10, 10⟩ ∧
    checkAABB ⟨0, 0, 10, 10⟩ ⟨5, 5, 10, 10⟩ = true ∧
    (resolveWallCollision ⟨0, 0, 10, 10⟩ ⟨5, 5, 10, 10⟩).1.x = 0 ∧
    (resolveWallCollision ⟨0, 0, 10, 10⟩ ⟨5, 5, 10, 10⟩).1.y = -5 := by
  norm_num [penX, penY, checkAABB, resolveWallCollision]

/-- C1 witness: concrete run of `resolveWallCollision_pushes_smaller_axis`
on a pair whose X penetration is the smaller one. -/
theorem resolveWallCollision_pushes_smaller_axis_witness :
    (resolveWallCollision ⟨0, 0, 10, 10⟩ ⟨6, 5, 10, 10⟩).1.y = 0 ∧
    |(resolveWallCollision ⟨0, 0, 10, 10⟩ ⟨6, 5, 10, 10⟩).1.x - 0| =
      penX ⟨0, 0, 10, 10⟩ ⟨6, 5, 10, 10⟩ :=
  (resolveWallCollision_pushes_smaller_axis ⟨0, 0, 10, 10⟩ ⟨6, 5, 10, 10⟩
    (by norm_num [checkAABB])).1 (by norm_num [penX, penY])

/-- C7: whenever `resolveWallCollision` returns `true` (a correction was
applied), re-checking `checkAABB` on the corrected entity against the same
wall returns `false`. -/
theorem resolveWallCollision_clears_overlap (e w : Box)
    (h : (resolveWallCollision e w).2 = true) :
    checkAABB (resolveWallCollision e w).1 w = false := by
  by_cases hc : checkAABB e w = true
  · obtain ⟨pL, pR, pT, pB⟩ := overlaps_pos e w hc
    unfold resolveWallCollision
    rw [hc]
    simp only [Bool.true_eq_false, if_false]
    split_ifs with h1 h2 h3 <;>
      · simp only [checkAABB, decide_eq_false_iff_not]
        intro hcon
        obtain ⟨c1, c2, c3, c4⟩ := hcon
        linarith
  · have hfalse : checkAABB e w = false := by
      cases hcb : checkAABB e w
      · rfl
      · exact absurd hcb hc
    unfold resolveWallCollision at h
    rw [hfalse] at h
    simp at h

/-- C7 witness: concrete run of `resolveWallCollision_clears_overlap`. -/
theorem resolveWallCollision_clears_overlap_witness :
    checkAABB (resolveWallCollision ⟨0, 0, 10, 10⟩ ⟨5, 6, 10, 10⟩).1 ⟨5, 6, 10, 10⟩ = false :=
  resolveWallCollision_clears_overlap ⟨0, 0, 10, 10⟩ ⟨5, 6, 10, 10⟩
    (by norm_num [resolveWallCollision, checkAABB])

end Collision

/-- Embeds `Particle` (src/entities/Particle.ts): position, velocity, color
tag, size, remaining life and decay-per-tick.  JavaScript numbers are exact
rationals here; the color string plays no role in any claim but is kept for
completeness. -/
structure Particle where
  x : ℚ
  y : ℚ
  vx : ℚ
  vy : ℚ
  color : String
  size : ℚ
  life : ℚ
  decay : ℚ
  destroyed : Bool
deriving DecidableEq, Repr

namespace Particle

/-- The `Particle` constructor (src/entities/Particle.ts, lines 16-31) with
its default arguments `size = 4`, `life = 1.0`, `decay = 0.03` spelled out. -/
def make (x y : ℚ) (vx vy : ℚ) (color : String) : Particle :=
  { x := x, y := y, vx := vx, vy := vy, color := color,
    size := 4, life := 1, decay := 3/100, destroyed := false }

/-- Embeds `Particle.update` (src/entities/Particle.ts, lines 68-82):
integrate position, apply the 0.95 velocity drag, decrement `life` by
`decay`, and set the destroyed flag once life reaches zero or below. -/
def update (p : Particle) (dt : ℚ) : Particle :=
  let px := p.x + p.vx * dt
  let py := p.y + p.vy * dt
  let vx := p.vx * (95/100)
  let vy := p.vy * (95/100)
  let life := p.life - p.decay
  { p with
    x := px,
    y := py,
    vx := vx,
    vy := vy,
    life := life,
    destroyed := if life ≤ 0 then true else p.destroyed }

/-- One update subtracts exactly `decay` from `life`. -/
theorem update_life (p : Particle) (dt : ℚ) :
    (update p dt).life = p.life - p.decay := rfl

/-- Updates never touch the decay field. -/
theorem update_decay (p : Particle) (dt : ℚ) :
    (update p dt).decay = p.decay := rfl

/-- The destroyed flag after one update. -/
theorem update_destroyed (p : Particle) (dt : ℚ) :
    (update p dt).destroyed =
      if p.life - p.decay ≤ 0 then true else p.destroyed := rfl

/-- Decay after `n` updates is unchanged. -/
theorem decay_after_iterate (p : Particle) (dt : ℚ) (n : ℕ) :
    ((fun q => update q dt)^[n] p).decay = p.decay := by
  induction n with
  | zero => simp
  | succ k ih =>
      rw [Function.iterate_succ_apply']
      show (update _ dt).decay = _
      rw [update_decay, ih]

/-- Life after `n` updates: each update subtracts exactly `decay`. -/
theorem life_after_iterate (p : Particle) (dt : ℚ) (n : ℕ) :
    ((fun q => update q dt)^[n] p).life = p.life - n * p.decay := by
  induction n with
  | zero => simp
  | succ k ih =>
      rw [Function.iterate_succ_apply']
      show (update _ dt).life = _
      rw [update_life, decay_after_iterate, ih]
      push_cast
      ring

/-- The destroyed flag after `n` updates of a live particle with nonnegative
decay: set exactly when at least one update has run and the resulting life is
`≤ 0` (life is monotone decreasing, so the last update sees the least life). -/
theorem destroyed_after_iterate (p : Particle) (dt : ℚ) (hdec : 0 ≤ p.decay)
    (hd : p.destroyed = false) (n : ℕ) :
    ((fun q => update q dt)^[n] p).destroyed =
      decide (1 ≤ n ∧ p.life - n * p.decay ≤ 0) := by
  induction n with
  | zero => simpa using hd
  | succ k ih =>
      rw [Function.iterate_succ_apply']
      show (update _ dt).destroyed = _
      rw [update_destroyed, life_after_iterate, decay_after_iterate, ih]
      by_cases hk : p.life - ((k + 1 : ℕ) : ℚ) * p.decay ≤ 0
      · have hk' : p.life - (k : ℚ) * p.decay - p.decay ≤ 0 := by
          push_cast at hk
          nlinarith [hk]
        rw [if_pos hk']
        symm
        rw [decide_eq_true_iff]
        exact ⟨by omega, hk⟩
      · have hk2 : ¬(p.life - (k : ℚ) * p.decay - p.decay ≤ 0) := by
          push_cast at hk
          intro hcon
          apply hk
          nlinarith [hcon]
        have h2 : ¬(p.life - (k : ℚ) * p.decay ≤ 0) := by
          push_cast at hk
          intro hcon
          apply hk
          nlinarith [hcon, hdec]
        rw [if_neg hk2, decide_eq_false (fun hcon => h2 hcon.2),
          decide_eq_false (fun hcon => hk hcon.2)]

/-- C6: every update of a live particle decreases `life` by exactly the
particle's `decay` and flags the particle destroyed exactly when the
resulting life is `≤ 0`; a particle built by the constructor defaults
(`life = 1.0`, `decay = 0.03`) is destroyed on exactly its 34th update and
not before.  (`Game.update` filters destroyed particles in the same tick the
flag is set, so `update` is only invoked on live particles.) -/
theorem particle_update_decay_spec :
    (∀ (p : Particle) (dt : ℚ), p.destroyed = false →
      (update p dt).life = p.life - p.decay ∧
      (update p dt).destroyed = decide (p.life - p.decay ≤ 0)) ∧
    ((fun q => update q (1/60))^[33] (make 0 0 0 0 "w")).destroyed = false ∧
    ((fun q => update q (1/60))^[34] (make 0 0 0 0 "w")).destroyed = true := by
  refine ⟨fun p dt hd => ⟨update_life p dt, ?_⟩, ?_, ?_⟩
  · rw [update_destroyed, hd]
    split_ifs with hcond
    · exact (decide_eq_true hcond).symm
    · exact (decide_eq_false hcond).symm
  · rw [destroyed_after_iterate (make 0 0 0 0 "w") (1/60) (by norm_num [make]) rfl 33]
    norm_num [make]
  · rw [destroyed_after_iterate (make 0 0 0 0 "w") (1/60) (by norm_num [make]) rfl 34]
    norm_num [make]

/-- C6 witness: concrete run of the universally quantified part of
`particle_update_decay_spec`. -/
theorem particle_update_decay_spec_witness :
    (update (make 1 2 3 4 "w") (1/100)).life =
      (make 1 2 3 4 "w").life - (make 1 2 3 4 "w").decay ∧
    (update (make 1 2 3 4 "w") (1/100)).destroyed =
      decide ((make 1 2 3 4 "w").life - (make 1 2 3 4 "w").decay ≤ 0) :=
  particle_update_decay_spec.1 (make 1 2 3 4 "w") (1/100) rfl

/-- Exact representation of a scalar angle of the form `piCoeff·π + offset`
radians; since `π` is irrational the representation of the angles computed by
`Particle.burst` (line 44: `(Math.PI * 2 * i) / count + Math.random() * 0.5`)
is exact. -/
structure PolarAngle where
  piCoeff : ℚ
  offset : ℚ
deriving DecidableEq, Repr

/-- A particle as produced by `Particle.burst`, with the velocity kept in the
polar form in which line 45 computes it: `Vector2.fromAngle(angle, mag)` is
the cartesian vector `(cos angle · mag, sin angle · mag)`, whose magnitude is
`|mag|`, so `mag` is the particle's initial speed.  The remaining fields are
those passed to the `Particle` constructor (defaults `life = 1`,
`decay = 0.03`). -/
structure BurstParticle where
  x : ℚ
  y : ℚ
  angle : PolarAngle
  mag : ℚ
  color : String
  size : ℚ
  life : ℚ
  decay : ℚ
deriving DecidableEq, Repr

/-- Embeds `Particle.burst` (src/entities/Particle.ts, lines 34-49).  `rnd`
is the stream of `Math.random()` draws (each in `[0,1)`), consumed in source
order: particle `i` draws `rnd (2*i)` for its angle jitter and
`rnd (2*i+1)` for its speed factor. -/
def burst (x y : ℚ) (color : String) (count : ℕ) (speed size : ℚ)
    (rnd : ℕ → ℚ) : List BurstParticle :=
  (List.range count).map (fun (i : ℕ) =>
    { x := x,
      y := y,
      angle := { piCoeff := 2 * (i : ℚ) / (count : ℚ),
                 offset := rnd (2 * i) * (1/2) },
      mag := speed * (1/2 + rnd (2 * i + 1)),
      color := color,
      size := size,
      life := 1,
      decay := 3/100 })

/-- C5 (amended): for every `count > 0` and every admissible outcome of the
random draws, the `i`-th particle produced by `burst` has angle
`2π·i/count` plus a jitter in `[0, 0.5)` radians, and an initial speed in
`[0.5, 1.5) × speed` — not `[0.5, 1.0] × speed` as the original claim
states, since the source computes `speed * (0.5 + Math.random())`. -/
theorem burst_angles_and_speeds (x y : ℚ) (color : String) (count : ℕ)
    (speed size : ℚ) (rnd : ℕ → ℚ) (hc : 0 < count) (hs : 0 < speed)
    (hr : ∀ n, 0 ≤ rnd n ∧ rnd n < 1) :
    ((burst x y color count speed size rnd).map (fun p => p.angle.piCoeff) =
      (List.range count).map (fun (i : ℕ) => 2 * (i : ℚ) / (count : ℚ))) ∧
    ∀ p ∈ burst x y color count speed size rnd,
      (1/2 * speed ≤ p.mag ∧ p.mag < 3/2 * speed) ∧
      0 ≤ p.angle.offset ∧ p.angle.offset < 1/2 := by
  constructor
  · simp [burst]
  · intro p hp
    simp only [burst, List.mem_map, List.mem_range] at hp
    obtain ⟨i, hi, rfl⟩ := hp
    obtain ⟨ha0, ha1⟩ := hr (2 * i)
    obtain ⟨hb0, hb1⟩ := hr (2 * i + 1)
    refine ⟨⟨by nlinarith, by nlinarith⟩, by nlinarith, by nlinarith⟩

/-- C5 counterexample: with the admissible draw `Math.random() = 0.9` and
`speed = 100`, the produced particle's speed is `140`, strictly above the
claimed upper bound `1.0 × speed`. -/
theorem burst_speed_outside_claimed_range :
    (0 : ℚ) ≤ 9/10 ∧ (9/10 : ℚ) < 1 ∧
    (burst 0 0 "c" 1 100 4 (fun _ => 9/10)).map (fun p => p.mag) = [140] ∧
    ¬((140 : ℚ) ≤ 1 * 100) := by
  norm_num [burst, List.range_succ]

/-- C5 witness: concrete run of `burst_angles_and_speeds`. -/
theorem burst_angles_and_speeds_witness :
    (burst 0 0 "c" 4 100 4 (fun _ => 1/4)).map (fun p => p.angle.piCoeff) =
      (List.range 4).map (fun (i : ℕ) => 2 * (i : ℚ) / (4 : ℚ)) :=
  (burst_angles_and_speeds 0 0 "c" 4 100 4 (fun _ => 1/4) (by norm_num)
    (by norm_num) (fun n => by norm_num)).1

end Particle

/-- Embeds the `Player` entity (src/entities/Player.ts).  `rotation` is set
from the mouse-direction angle `Math.atan2`; its (generally irrational)
value is supplied by the input environment and never read back by any
modeled operation.  `lastHitTime` stores `performance.now() / 1000`
(wall-clock seconds), exactly as the source does. -/
structure Player where
  x : ℚ
  y : ℚ
  width : ℚ
  height : ℚ
  vx : ℚ
  vy : ℚ
  speed : ℚ
  rotation : ℚ
  shootCooldown : ℚ
  hp : ℚ
  maxHp : ℚ
  lastHitTime : ℚ
  destroyed : Bool
deriving DecidableEq, Repr

/-- Embeds the delta-time computation of `Game.gameLoop` (src/core/Game.ts,
line 265): `min((timestamp − lastTimestamp) / 1000, 0.1)`, timestamps in
milliseconds, result in seconds of simulation time. -/
def Game.deltaTime (timestamp lastTimestamp : ℚ) : ℚ :=
  min ((timestamp - lastTimestamp) / 1000) (1/10)

namespace Player

/-- The `Player` constructor (lines 23-29): 32×32 box, speed 250,
`hp = maxHp = 100`, `shootCooldown = 0`, `lastHitTime = 0`. -/
def make (x y : ℚ) : Player :=
  { x := x, y := y, width := 32, height := 32, vx := 0, vy := 0,
    speed := 250, rotation := 0, shootCooldown := 0, hp := 100,
    maxHp := 100, lastHitTime := 0, destroyed := false }

/-- Embeds `Player.isInvulnerable` (lines 32-34).  `now` is
`performance.now() / 1000`: the wall-clock timestamp in seconds at the
moment of the call. -/
def isInvulnerable (p : Player) (now : ℚ) : Bool :=
  decide (now - p.lastHitTime < 1/2)

/-- Embeds `Player.takeDamage` (lines 37-48); returns the updated player and
the boolean result.  `now` is the wall-clock timestamp in seconds
(`performance.now() / 1000`) at the moment of the call. -/
def takeDamage (p : Player) (amount now : ℚ) : Player × Bool :=
  if isInvulnerable p now then (p, false)
  else
    let p1 := { p with hp := p.hp - amount, lastHitTime := now }
    if p1.hp ≤ 0 then ({ p1 with hp := 0, destroyed := true }, true)
    else (p1, true)

/-- Embeds `Player.clampToScreen` (lines 72-79).  `width`/`height` are the
canvas dimensions returned by the game back-reference (the guard for a
missing back-reference never fires in the game, where `Game.addEntity` sets
it before any update). -/
def clampToScreen (p : Player) (width height : ℚ) : Player :=
  let maxX := width - p.width
  let maxY := height - p.height
  { p with
    x := max 0 (min p.x maxX),
    y := max 0 (min p.y maxY) }

/-- Embeds `Player.update` (lines 50-70).  `movement` is the input
manager's movement vector, `mouseAngle` the `Math.atan2` angle toward the
mouse cursor, `mouseJustPressed` the edge-triggered click flag, and
`width`/`height` the canvas bounds.  The returned boolean records whether a
projectile was fired (`shoot` hands the new projectile to `Game.addEntity`;
the spawned projectile itself is modeled in the `Game` section). -/
def update (p : Player) (dt : ℚ) (movement : Vec2) (mouseAngle : ℚ)
    (mouseJustPressed : Bool) (width height : ℚ) : Player × Bool :=
  let p1 := { p with vx := movement.x * p.speed, vy := movement.y * p.speed }
  let p2 := { p1 with x := p1.x + p1.vx * dt, y := p1.y + p1.vy * dt }
  let p3 := clampToScreen p2 width height
  let p4 := { p3 with rotation := mouseAngle }
  let p5 := { p4 with shootCooldown := max 0 (p4.shootCooldown - dt) }
  if mouseJustPressed = true ∧ p5.shootCooldown ≤ 0 then
    ({ p5 with shootCooldown := 3/20 }, true)
  else (p5, false)

/-- C4 (amended): a second `takeDamage` call within the 0.5-second
invulnerability window that follows a successful hit applies no damage —
hit points drop exactly once and the second call leaves the player
unchanged.  The window is measured on the wall-clock timestamps
(`performance.now()`), not in elapsed simulation time (see
`takeDamage_window_wall_clock`). -/
theorem takeDamage_invuln_window (p : Player) (amount now₁ now₂ : ℚ)
    (h1 : isInvulnerable p now₁ = false) (h2 : now₂ - now₁ < 1/2) :
    (takeDamage p amount now₁).2 = true ∧
    (takeDamage (takeDamage p amount now₁).1 amount now₂).2 = false ∧
    (takeDamage (takeDamage p amount now₁).1 amount now₂).1 =
      (takeDamage p amount now₁).1 ∧
    (takeDamage p amount now₁).1.hp =
      (if p.hp - amount ≤ 0 then 0 else p.hp - amount) := by
  have hlast : (takeDamage p amount now₁).1.lastHitTime = now₁ := by
    unfold takeDamage
    rw [h1]
    simp only [Bool.false_eq_true, if_false]
    split_ifs <;> rfl
  have hinv2 : isInvulnerable (takeDamage p amount now₁).1 now₂ = true := by
    unfold isInvulnerable
    rw [hlast]
    exact decide_eq_true h2
  have hblocked : takeDamage (takeDamage p amount now₁).1 amount now₂ =
      ((takeDamage p amount now₁).1, false) := by
    conv =>
      lhs
      rw [takeDamage]
    rw [if_pos hinv2]
  refine ⟨?_, ?_, ?_, ?_⟩
  · unfold takeDamage
    rw [h1]
    simp only [Bool.false_eq_true, if_false]
    split_ifs <;> rfl
  · rw [hblocked]
  · rw [hblocked]
  · unfold takeDamage
    rw [h1]
    simp only [Bool.false_eq_true, if_false]
    split_ifs with hz <;> rfl

/-- C4 witness: concrete run of `takeDamage_invuln_window`: a hit at
wall-clock second 1 followed by a hit at second 1.2. -/
theorem takeDamage_invuln_window_witness :
    (takeDamage (make 0 0) 10 1).2 = true ∧
    (takeDamage (takeDamage (make 0 0) 10 1).1 10 (12/10)).2 = false ∧
    (takeDamage (takeDamage (make 0 0) 10 1).1 10 (12/10)).1 =
      (takeDamage (make 0 0) 10 1).1 ∧
    (takeDamage (make 0 0) 10 1).1.hp =
      (if (make 0 0).hp - 10 ≤ 0 then 0 else (make 0 0).hp - 10) :=
  takeDamage_invuln_window (make 0 0) 10 1 (12/10)
    (by norm_num [isInvulnerable, make]) (by norm_num)

/-- C4 counterexample: the invulnerability window is wall-clock-dependent.
Two frame pairs with identical elapsed simulation time (`deltaTime` clamps
both the 10-second and the 0.1-second wall gap to 0.1 s of simulation time)
give different damage outcomes: after a hit at wall-clock second 1, a hit at
second 11 applies damage while a hit at second 1.1 does not. -/
theorem takeDamage_window_wall_clock :
    Game.deltaTime 11000 1000 = Game.deltaTime 1100 1000 ∧
    (takeDamage (takeDamage (make 0 0) 10 1).1 10 11).2 = true ∧
    (takeDamage (takeDamage (make 0 0) 10 1).1 10 (11/10)).2 = false := by
  refine ⟨by norm_num [Game.deltaTime], ?_, ?_⟩ <;>
    norm_num [takeDamage, isInvulnerable, make]

/-- C9 (amended): after every `Player.update` call on a canvas at least as
large as the player, the player's position lies within the screen bounds:
`0 ≤ x ≤ width − player.width` and `0 ≤ y ≤ height − player.height`,
for any input, any `dt` and any starting position.  (On a canvas smaller
than the player the clamp floors at 0 and the upper bound fails, see
`update_clamp_small_canvas`.) -/
theorem update_clamps_to_screen (p : Player) (dt : ℚ) (movement : Vec2)
    (mouseAngle : ℚ) (mouseJustPressed : Bool) (width height : ℚ)
    (hw : p.width ≤ width) (hh : p.height ≤ height) :
    0 ≤ (update p dt movement mouseAngle mouseJustPressed width height).1.x ∧
    (update p dt movement mouseAngle mouseJustPressed width height).1.x ≤
      width - p.width ∧
    0 ≤ (update p dt movement mouseAngle mouseJustPressed width height).1.y ∧
    (update p dt movement mouseAngle mouseJustPressed width height).1.y ≤
      height - p.height := by
  unfold update clampToScreen
  dsimp only
  split_ifs <;>
    refine ⟨le_max_left _ _, ?_, le_max_left _ _, ?_⟩ <;>
    · apply max_le
      · linarith
      · exact min_le_right _ _

/-- C9 witness: concrete run of `update_clamps_to_screen` on an 800×600
canvas with a large rightward move. -/
theorem update_clamps_to_screen_witness :
    0 ≤ (update (make 790 5) 1 ⟨1, 0⟩ 0 false 800 600).1.x ∧
    (update (make 790 5) 1 ⟨1, 0⟩ 0 false 800 600).1.x ≤ 800 - (make 790 5).width ∧
    0 ≤ (update (make 790 5) 1 ⟨1, 0⟩ 0 false 800 600).1.y ∧
    (update (make 790 5) 1 ⟨1, 0⟩ 0 false 800 600).1.y ≤ 600 - (make 790 5).height :=
  update_clamps_to_screen (make 790 5) 1 ⟨1, 0⟩ 0 false 800 600
    (by norm_num [make]) (by norm_num [make])

/-- C9 counterexample: on a canvas narrower than the 32-pixel player the
claimed bound `x ≤ width − player.width` fails after `update` — the clamp
floors the position at 0, which exceeds `10 − 32`. -/
theorem update_clamp_small_canvas :
    (update (make 5 5) 0 ⟨0, 0⟩ 0 false 10 10).1.x = 0 ∧
    ¬((update (make 5 5) 0 ⟨0, 0⟩ 0 false 10 10).1.x ≤ 10 - (make 5 5).width) := by
  norm_num [update, clampToScreen, make]

end Player

/-- The enemy AI states (src/entities/Enemy.ts, state-machine version):
`'IDLE' | 'CHASE'`. -/
inductive EnemyState where
  | idle : EnemyState
  | chase : EnemyState
deriving DecidableEq, Repr

/-- Embeds the state-machine `Enemy` (src/entities/Enemy.ts, state-machine
version).  The fields of the behavior state machine are embedded exactly;
`position`, `velocity`, `rotation` and `idleDirection` are real-valued
quantities driven by `Math.cos`/`Math.sin`/normalization and are not read by
the state machine itself — the target distance they induce is supplied to
`update` per evaluation as the squared distance `dist2` (the source compares
`sqrt d ≷ r` with `r = 300, 500 > 0`, which is equivalent to `d ≷ r²`). -/
structure Enemy where
  hp : ℚ
  maxHp : ℚ
  state : EnemyState
  idleTimer : ℚ
  wasRecentlyDamaged : Bool
  speed : ℚ
  destroyed : Bool
deriving DecidableEq, Repr

namespace Enemy

/-- The `AGGRO_RANGE = 300` threshold, squared. -/
def aggroRange2 : ℚ := 300 * 300

/-- The `DEAGGRO_RANGE = 500` threshold, squared. -/
def deaggroRange2 : ℚ := 500 * 500

/-- The `Enemy` constructor (lines 34-40): `hp = maxHp = 3`, initial state
IDLE, `speed = IDLE_SPEED = 40`, idle timer 0 (via
`pickRandomIdleDirection`). -/
def make : Enemy :=
  { hp := 3, maxHp := 3, state := EnemyState.idle, idleTimer := 0,
    wasRecentlyDamaged := false, speed := 40, destroyed := false }

/-- Embeds `Enemy.setState` (lines 68-72): no-op when the state is unchanged,
otherwise swaps the state together with the speed
(`CHASE_SPEED = 140`, `IDLE_SPEED = 40`). -/
def setState (e : Enemy) (newState : EnemyState) : Enemy :=
  if e.state = newState then e
  else { e with
         state := newState,
         speed := if newState = EnemyState.chase then 140 else 40 }

/-- Embeds `Enemy.pickRandomIdleDirection` (lines 74-78): draws a fresh
random unit heading (real-valued, not read by the state machine) and resets
the idle timer. -/
def pickRandomIdleDirection (e : Enemy) : Enemy :=
  { e with idleTimer := 0 }

/-- Embeds `Enemy.takeDamage` (lines 48-61): subtract hit points, set the
just-damaged latch, aggro immediately when idle, clamp hit points at zero
and flag destruction on death. -/
def takeDamage (e : Enemy) (amount : ℚ) : Enemy :=
  let e1 := { e with hp := e.hp - amount, wasRecentlyDamaged := true }
  let e2 := if e1.state = EnemyState.idle then setState e1 EnemyState.chase else e1
  if e2.hp ≤ 0 then { e2 with hp := 0, destroyed := true } else e2

/-- Embeds `Enemy.updateIdle` (lines 136-147) restricted to the state-machine
fields: accumulate idle time and re-roll the heading (resetting the timer)
every `IDLE_CHANGE_INTERVAL = 2` seconds; the wander movement itself only
touches position/velocity/rotation. -/
def updateIdle (e : Enemy) (dt : ℚ) : Enemy :=
  let e1 := { e with idleTimer := e.idleTimer + dt }
  if e1.idleTimer ≥ 2 then pickRandomIdleDirection e1 else e1

/-- Embeds `Enemy.updateChase` (lines 118-134) restricted to the
state-machine fields: chasing only writes position/velocity/rotation, so it
is the identity here. -/
def updateChase (e : Enemy) (dt : ℚ) : Enemy := e

/-- Embeds `Enemy.update` (lines 85-116).  `targetPresent` is
`this.target !== null`, `targetDestroyed` is `this.target.destroyed`, and
`dist2` is the squared center distance to the target at this evaluation
(`getDistanceToTarget()` squared; the source's comparisons with the aggro
and deaggro radii are strict inequalities of nonnegative numbers, preserved
exactly by squaring). -/
def update (e : Enemy) (targetPresent targetDestroyed : Bool) (dist2 dt : ℚ) :
    Enemy :=
  if targetPresent = false ∨ targetDestroyed = true then
    updateIdle (setState e EnemyState.idle) dt
  else
    let e1 :=
      if e.state = EnemyState.idle then
        if dist2 < aggroRange2 ∨ e.wasRecentlyDamaged = true then
          setState e EnemyState.chase
        else e
      else
        if dist2 > deaggroRange2 ∧ e.wasRecentlyDamaged = false then
          pickRandomIdleDirection (setState e EnemyState.idle)
        else e
    let e2 := { e1 with wasRecentlyDamaged := false }
    if e2.state = EnemyState.chase then updateChase e2 dt else updateIdle e2 dt

/-- C3: a hostile in IDLE beyond the deaggro range whose live target is
unchanged in distance: `takeDamage` sets the just-damaged latch and
transitions it to CHASE in the same tick; the next `update` evaluation keeps
it in CHASE while consuming the latch; and the evaluation after that reverts
it to IDLE.  (`amount < hp` keeps the hostile alive so that later
evaluations happen.) -/
theorem takeDamage_forces_chase_tick (e : Enemy) (amount dist2 dt₁ dt₂ : ℚ)
    (hstate : e.state = EnemyState.idle) (hfar : dist2 > deaggroRange2)
    (halive : 0 < e.hp - amount) :
    ((takeDamage e amount).state = EnemyState.chase ∧
     (takeDamage e amount).wasRecentlyDamaged = true) ∧
    ((update (takeDamage e amount) true false dist2 dt₁).state =
        EnemyState.chase ∧
     (update (takeDamage e amount) true false dist2 dt₁).wasRecentlyDamaged =
        false) ∧
    (update (update (takeDamage e amount) true false dist2 dt₁)
        true false dist2 dt₂).state = EnemyState.idle := by
  have he1 : takeDamage e amount =
      { e with
        hp := e.hp - amount,
        wasRecentlyDamaged := true,
        state := EnemyState.chase,
        speed := 140 } := by
    simp only [takeDamage, setState, hstate]
    simp only [reduceCtorEq, reduceIte]
    rw [if_neg (by linarith)]
  rw [he1]
  refine ⟨⟨rfl, rfl⟩, ?_⟩
  have he2 : update
      { e with
        hp := e.hp - amount,
        wasRecentlyDamaged := true,
        state := EnemyState.chase,
        speed := 140 } true false dist2 dt₁ =
      { e with
        hp := e.hp - amount,
        wasRecentlyDamaged := false,
        state := EnemyState.chase,
        speed := 140 } := by
    simp only [update, updateChase]
    simp only [Bool.true_eq_false, Bool.false_eq_true, or_self, if_false,
      reduceCtorEq, reduceIte, and_false, and_true, if_false]
  rw [he2]
  refine ⟨⟨rfl, rfl⟩, ?_⟩
  simp only [update, setState, updateIdle, pickRandomIdleDirection, updateChase]
  simp only [Bool.true_eq_false, Bool.false_eq_true, or_self, if_false,
    reduceCtorEq, reduceIte, and_false, and_true]
  rw [if_pos hfar]
  simp only [reduceCtorEq, reduceIte]
  split_ifs <;> rfl

/-- C3 witness: concrete run of `takeDamage_forces_chase_tick` on a freshly
constructed enemy damaged at squared distance 1000² (beyond deaggro). -/
theorem takeDamage_forces_chase_tick_witness :
    (((takeDamage make 1).state = EnemyState.chase ∧
      (takeDamage make 1).wasRecentlyDamaged = true) ∧
     ((update (takeDamage make 1) true false 1000000 (1/60)).state =
        EnemyState.chase ∧
      (update (takeDamage make 1) true false 1000000 (1/60)).wasRecentlyDamaged =
        false) ∧
     (update (update (takeDamage make 1) true false 1000000 (1/60))
        true false 1000000 (1/60)).state = EnemyState.idle) :=
  takeDamage_forces_chase_tick make 1 1000000 (1/60) (1/60) rfl
    (by norm_num [deaggroRange2]) (by norm_num [make])

end Enemy

/-- Real-valued embedding of `Vector2` (src/utils/Vector2.ts) for the
operations that involve `Math.sqrt`: `magnitude` and `normalize`.  (The
rational embedding `Vec2` above covers the field-arithmetic operations;
this one is needed because the magnitude of a rational vector is in general
irrational.) -/
structure Vec2R where
  x : ℝ
  y : ℝ

namespace Vec2R

/-- Two real vectors are equal iff their components are. -/
theorem ext_iff (v w : Vec2R) : v = w ↔ v.x = w.x ∧ v.y = w.y := by
  constructor
  · intro h
    rw [h]
    exact ⟨rfl, rfl⟩
  · intro h
    cases v
    cases w
    simp only at h
    rw [h.1, h.2]

/-- Embeds `Vector2.add` over ℝ. -/
def add (v w : Vec2R) : Vec2R := ⟨v.x + w.x, v.y + w.y⟩

/-- Embeds `Vector2.subtract` over ℝ. -/
def subtract (v w : Vec2R) : Vec2R := ⟨v.x - w.x, v.y - w.y⟩

/-- Embeds `Vector2.multiply` over ℝ. -/
def multiply (v : Vec2R) (s : ℝ) : Vec2R := ⟨v.x * s, v.y * s⟩

/-- Embeds the `magnitude` getter (src/utils/Vector2.ts, lines 13-15):
`Math.sqrt(x*x + y*y)`. -/
noncomputable def magnitude (v : Vec2R) : ℝ := Real.sqrt (v.x * v.x + v.y * v.y)

/-- Embeds `Vector2.normalize` (src/utils/Vector2.ts, lines 38-42): the zero
vector when the magnitude is exactly zero, otherwise the componentwise
division by the magnitude. -/
noncomputable def normalize (v : Vec2R) : Vec2R :=
  if magnitude v = 0 then ⟨0, 0⟩
  else ⟨v.x / magnitude v, v.y / magnitude v⟩

/-- The magnitude vanishes only on the zero vector. -/
theorem magnitude_pos_of_ne_zero (v : Vec2R) (h : v ≠ ⟨0, 0⟩) :
    0 < magnitude v := by
  have hsum : 0 < v.x * v.x + v.y * v.y := by
    rcases lt_trichotomy v.x 0 with hx | hx | hx
    · nlinarith [mul_self_nonneg v.y]
    · rcases lt_trichotomy v.y 0 with hy | hy | hy
      · nlinarith
      · exact absurd ((ext_iff v ⟨0, 0⟩).mpr ⟨hx, hy⟩) h
      · nlinarith
    · nlinarith [mul_self_nonneg v.y]
  exact Real.sqrt_pos.mpr hsum

end Vec2R

namespace EnemyMotion

/-- Embeds `Enemy.knockback` (src/entities/Enemy.ts state-machine version,
lines 150-153): `position += direction.normalize() * force`.  The method
reads the enemy only through its position, which is passed explicitly. -/
noncomputable def knockback (pos direction : Vec2R) (force : ℝ) : Vec2R :=
  Vec2R.add pos (Vec2R.multiply (Vec2R.normalize direction) force)

/-- C10: `normalize` of the zero vector is the zero vector (no division by
zero); therefore `knockback` with a zero direction leaves the position
unchanged, and with any nonzero direction and nonnegative force it displaces
the position by exactly the force magnitude. -/
theorem normalize_zero_knockback_exact :
    Vec2R.normalize ⟨0, 0⟩ = ⟨0, 0⟩ ∧
    (∀ (pos : Vec2R) (force : ℝ), knockback pos ⟨0, 0⟩ force = pos) ∧
    (∀ (pos direction : Vec2R) (force : ℝ), direction ≠ ⟨0, 0⟩ → 0 ≤ force →
      Vec2R.magnitude (Vec2R.subtract (knockback pos direction force) pos) =
        force) := by
  have hnz : Vec2R.normalize ⟨0, 0⟩ = ⟨0, 0⟩ := by
    unfold Vec2R.normalize Vec2R.magnitude
    rw [if_pos]
    simp [Real.sqrt_zero]
  refine ⟨hnz, ?_, ?_⟩
  · intro pos force
    rw [knockback, hnz]
    rw [Vec2R.ext_iff]
    constructor <;> simp [Vec2R.add, Vec2R.multiply]
  · intro pos direction force hdir hforce
    have hmag := Vec2R.magnitude_pos_of_ne_zero direction hdir
    have hmagne : Vec2R.magnitude direction ≠ 0 := ne_of_gt hmag
    have hnorm : Vec2R.normalize direction =
        ⟨direction.x / Vec2R.magnitude direction,
         direction.y / Vec2R.magnitude direction⟩ := by
      unfold Vec2R.normalize
      rw [if_neg hmagne]
    have hdisp : Vec2R.subtract (knockback pos direction force) pos =
        ⟨direction.x / Vec2R.magnitude direction * force,
         direction.y / Vec2R.magnitude direction * force⟩ := by
      rw [knockback, hnorm, Vec2R.ext_iff]
      constructor <;> simp [Vec2R.add, Vec2R.multiply, Vec2R.subtract]
    have hm : Vec2R.magnitude direction =
        Real.sqrt (direction.x * direction.x + direction.y * direction.y) := rfl
    have hm2 : Vec2R.magnitude direction * Vec2R.magnitude direction =
        direction.x * direction.x + direction.y * direction.y := by
      have hx2 := mul_self_nonneg direction.x
      have hy2 := mul_self_nonneg direction.y
      rw [hm]
      exact Real.mul_self_sqrt (by nlinarith)
    rw [hdisp]
    unfold Vec2R.magnitude
    dsimp only
    rw [← hm]
    have hinner : direction.x / Vec2R.magnitude direction * force *
          (direction.x / Vec2R.magnitude direction * force) +
        direction.y / Vec2R.magnitude direction * force *
          (direction.y / Vec2R.magnitude direction * force) = force * force := by
      field_simp
      nlinarith [hm2]
    rw [hinner]
    exact Real.sqrt_mul_self hforce

/-- C10 witness: concrete run of `normalize_zero_knockback_exact`: the
direction `(3, 4)` with force 30 displaces the enemy by exactly 30. -/
theorem normalize_zero_knockback_exact_witness :
    Vec2R.magnitude (Vec2R.subtract (knockback ⟨0, 0⟩ ⟨3, 4⟩ 30) ⟨0, 0⟩) = 30 :=
  normalize_zero_knockback_exact.2.2 ⟨0, 0⟩ ⟨3, 4⟩ 30
    (by
      intro hcon
      have hx : (3 : ℝ) = 0 := by
        have := (Vec2R.ext_iff ⟨3, 4⟩ ⟨0, 0⟩).mp hcon
        exact this.1
      norm_num at hx)
    (by norm_num)

end EnemyMotion

/-- The kind-specific data of an entity in the game's live collection
(src/core/Game.ts stores `Player`, `Enemy` and `Projectile` instances in a
single `Entity[]`; walls are kept in a separate array).  The player carries
its own box fields; an enemy is its behavior state machine paired with its
box; a projectile is its box, its velocity and its destroyed flag. -/
inductive EntityData where
  | playerE : Player → EntityData
  | enemyE : Enemy → Box → EntityData
  | projectileE : Box → ℚ → ℚ → Bool → EntityData
deriving DecidableEq, Repr

namespace EntityData

/-- The destroyed flag of the underlying entity (src/entities/Entity.ts). -/
def destroyed : EntityData → Bool
  | playerE p => p.destroyed
  | enemyE en _ => en.destroyed
  | projectileE _ _ _ d => d

/-- The entity's AABB (`position`, `width`, `height`). -/
def box : EntityData → Box
  | playerE p => ⟨p.x, p.y, p.width, p.height⟩
  | enemyE _ b => b
  | projectileE b _ _ _ => b

/-- Write back a moved box (wall resolution and knockback only move the
position). -/
def withBox : EntityData → Box → EntityData
  | playerE p, b => playerE { p with x := b.x, y := b.y }
  | enemyE en _, b => enemyE en b
  | projectileE _ vx vy d, b => projectileE b vx vy d

/-- Embeds `Entity.destroy()` (src/entities/Entity.ts, lines 41-43). -/
def destroy : EntityData → EntityData
  | playerE p => playerE { p with destroyed := true }
  | enemyE en b => enemyE { en with destroyed := true } b
  | projectileE b vx vy _ => projectileE b vx vy true

end EntityData

/-- An entity of the live collection together with an identity tag standing
for the JavaScript object reference (aliasing between `Game.player`,
`Enemy.target` and list members is by reference in the source; the model
addresses entities by id). -/
structure GEntity where
  id : ℕ
  data : EntityData
deriving DecidableEq, Repr

namespace GEntity

/-- The entity's destroyed flag. -/
def destroyed (e : GEntity) : Bool := e.data.destroyed

/-- The entity's AABB. -/
def box (e : GEntity) : Box := e.data.box

/-- Embeds `e instanceof Projectile`. -/
def isProjectile (e : GEntity) : Bool :=
  match e.data with
  | EntityData.projectileE _ _ _ _ => true
  | _ => false

/-- Embeds `e instanceof Enemy`. -/
def isEnemy (e : GEntity) : Bool :=
  match e.data with
  | EntityData.enemyE _ _ => true
  | _ => false

end GEntity

/-- Embeds the state owned by `Game` (src/core/Game.ts, lines 19-35) that the
simulation mutates: the live collection, the pending-add buffer, the
pending-remove set (of entity ids), particles, walls, the player reference
(by id), score, the game-over flag, the running flag and the previous frame
timestamp. -/
structure GameState where
  entities : List GEntity
  entitiesToAdd : List GEntity
  entitiesToRemove : List ℕ
  particles : List Particle
  walls : List Box
  playerId : Option ℕ
  score : ℚ
  isGameOver : Bool
  running : Bool
  lastTimestamp : ℚ
deriving DecidableEq, Repr

/-- The per-tick environment: everything the tick reads from outside the
`GameState`.  `updFn` is the virtual `entity.update(dt)` dispatch of the
update loop (src/core/Game.ts, lines 298-302) — it returns the updated
entity together with the entities it handed to `Game.addEntity` during the
call (e.g. a projectile fired by `Player.shoot`).  `now` is
`performance.now() / 1000` during the collision pass (read by
`Player.takeDamage`).  `restart` stands for `Game.restart` (level
regeneration from fresh randomness).  The particle generators
(`Particle.scatter`/`Particle.burst` at the collision call sites) produce
cartesian velocities from random angles, which are irrational; their outputs
are supplied by the environment per call site, keyed by the ids of the
entities involved.  `knockbackDisp direction force` is the displacement
`direction.normalize() * force` of `Enemy.knockback` (irrational over ℚ for
the same reason; the orchestrator-level theorems hold for every value). -/
structure Env where
  updFn : GEntity → ℚ → GEntity × List GEntity
  now : ℚ
  keyR : Bool
  restart : GameState → GameState
  wallFx : ℕ → List Particle
  hitFx : ℕ → ℕ → List Particle
  killFx : ℕ → List Particle
  playerFx : ℕ → List Particle
  gameOverFx : List Particle
  knockbackDisp : Vec2 → ℚ → Vec2

namespace Game

/-- Embeds `Game.addEntity` (src/core/Game.ts, lines 92-95): sets the back-reference
(no counterpart in the model) and appends to the pending-add buffer. -/
def addEntity (s : GameState) (e : GEntity) : GameState :=
  { s with entitiesToAdd := s.entitiesToAdd ++ [e] }

/-- Embeds `Game.removeEntity` (lines 98-100): adds to the pending-remove set. -/
def removeEntity (s : GameState) (i : ℕ) : GameState :=
  if i ∈ s.entitiesToRemove then s
  else { s with entitiesToRemove := s.entitiesToRemove ++ [i] }

/-- Embeds `Game.addParticles` (lines 108-110). -/
def addParticles (s : GameState) (ps : List Particle) : GameState :=
  { s with particles := s.particles ++ ps }

/-- Look an entity up by id (the model's counterpart of following a
JavaScript object reference into the live collection). -/
def findEntity (s : GameState) (i : ℕ) : Option GEntity :=
  s.entities.find? (fun (e : GEntity) => e.id = i)

/-- Mutate the entity with the given id in place. -/
def setEntity (s : GameState) (i : ℕ) (f : GEntity → GEntity) : GameState :=
  { s with entities := s.entities.map (fun (e : GEntity) => if e.id = i then f e else e) }

/-- The list the update pass of a tick iterates: the live collection after
the pending-add buffer has been flushed into it at the start of
`Game.update` (src/core/Game.ts, lines 292-295). -/
def updateIterates (s : GameState) : List GEntity :=
  s.entities ++ s.entitiesToAdd

/-- Embeds the game-over check of `Game.update` (src/core/Game.ts, lines
311-315): when the player reference exists and its hit points have reached
zero, set the game-over flag and emit the death burst. -/
def checkGameOver (s : GameState) (env : Env) : GameState :=
  match s.playerId with
  | none => s
  | some pid =>
      match findEntity s pid with
      | some pe =>
          match pe.data with
          | EntityData.playerE pl =>
              if pl.hp ≤ 0 then
                { s with
                  isGameOver := true,
                  particles := s.particles ++ env.gameOverFx }
              else s
          | _ => s
      | none => s

/-- Embeds `Game.update` (src/core/Game.ts, lines 282-326) in source order:
the game-over/restart early return; flushing the pending-add buffer; the
update loop over every non-destroyed entity (with `Game.addEntity` calls
made during the loop accumulating in the pending buffer in call order);
the particle update and same-step particle compaction; the game-over check
on the player reference; the no-op win-condition check; and the end-of-step
entity compaction, which removes destroyed and pending-remove entities and
clears the remove set. -/
def update (s : GameState) (env : Env) (dt : ℚ) : GameState :=
  if s.isGameOver = true then
    if env.keyR = true then env.restart s else s
  else
    let s1 :=
      if s.entitiesToAdd.length > 0 then
        { s with entities := s.entities ++ s.entitiesToAdd, entitiesToAdd := [] }
      else s
    let s2 := { s1 with
                entities := s1.entities.map
                  (fun (e : GEntity) => if e.destroyed = true then e else (env.updFn e dt).1),
                entitiesToAdd := s1.entitiesToAdd ++ s1.entities.flatMap
                  (fun (e : GEntity) => if e.destroyed = true then [] else (env.updFn e dt).2) }
    let s3 := { s2 with
                particles := (s2.particles.map
                  (fun (p : Particle) => Particle.update p dt)).filter
                    (fun (p : Particle) => !p.destroyed) }
    let s4 := checkGameOver s3 env
    { s4 with
      entities := s4.entities.filter
        (fun (e : GEntity) => !e.destroyed && !(s4.entitiesToRemove.contains e.id)),
      entitiesToRemove := [] }

/-- One entity's wall resolution inside `Game.checkWallCollisions`
(src/core/Game.ts, lines 398-400 and 406-408): fold
`Collision.resolveWallCollision` over the walls on the entity's box. -/
def wallResolveStep (st : GameState) (i : ℕ) : GameState :=
  setEntity st i (fun e =>
    { e with
      data := e.data.withBox
        (st.walls.foldl
          (fun (b : Box) (w : Box) => (Collision.resolveWallCollision b w).1)
          e.data.box) })

/-- Embeds `Game.checkWallCollisions` (src/core/Game.ts, lines 395-410):
resolve walls first for the live player, then for every non-destroyed
enemy. -/
def checkWallCollisions (s : GameState) : GameState :=
  let s1 :=
    match s.playerId with
    | none => s
    | some pid =>
        match findEntity s pid with
        | some pe =>
            if pe.destroyed = false then wallResolveStep s pid else s
        | none => s
  let enemyIds := (s1.entities.filter
      (fun (e : GEntity) => e.isEnemy && !e.destroyed)).map GEntity.id
  enemyIds.foldl wallResolveStep s1

/-- The enemy's hit points (0 for other kinds; read only on enemies). -/
def enemyHp (e : GEntity) : ℚ :=
  match e.data with
  | EntityData.enemyE en _ => en.hp
  | _ => 0

/-- The body of the projectile-vs-wall loop (src/core/Game.ts, lines
337-347), for projectile `i`: destroy it at the first overlapping wall and
emit poof particles. -/
def projWallStep (env : Env) (st : GameState) (i : ℕ) : GameState :=
  match findEntity st i with
  | none => st
  | some pe =>
      if st.walls.any (fun (w : Box) => Collision.checkAABB pe.box w) then
        addParticles
          (setEntity st i (fun (e : GEntity) => { e with data := e.data.destroy }))
          (env.wallFx i)
      else st

/-- The body of the inner enemy loop of the projectile-vs-enemy pass
(src/core/Game.ts, lines 353-371), for projectile `i` and enemy `j`. -/
def projEnemyInner (env : Env) (i : ℕ) (st2 : GameState) (j : ℕ) : GameState :=
  match findEntity st2 i, findEntity st2 j with
  | some pr, some en =>
      if en.destroyed = true then st2
      else if Collision.checkAABB pr.box en.box = true then
        let st3 := setEntity st2 i
          (fun (e : GEntity) => { e with data := e.data.destroy })
        let st4 := setEntity st3 j (fun e =>
          match e.data with
          | EntityData.enemyE enm b =>
              { e with
                data := EntityData.enemyE (Enemy.takeDamage enm 1) b }
          | _ => e)
        let st5 := addParticles st4 (env.hitFx i j)
        match findEntity st5 j with
        | some en2 =>
            if enemyHp en2 ≤ 0 then
              addParticles { st5 with score := st5.score + 10 }
                (env.killFx j)
            else st5
        | none => st5
      else st2
  | _, _ => st2

/-- The body of the outer loop of the projectile-vs-enemy pass
(src/core/Game.ts, lines 350-372), for projectile `i`. -/
def projEnemyStep (env : Env) (enemyIds : List ℕ) (st : GameState) (i : ℕ) :
    GameState :=
  match findEntity st i with
  | none => st
  | some pe0 =>
      if pe0.destroyed = true then st
      else enemyIds.foldl (projEnemyInner env i) st

/-- The body of the enemy-vs-player loop (src/core/Game.ts, lines 376-390),
for player id `pid` and enemy `j`. -/
def enemyPlayerStep (env : Env) (pid : ℕ) (st : GameState) (j : ℕ) : GameState :=
  match findEntity st pid, findEntity st j with
  | some pl, some en =>
      if en.destroyed = true then st
      else if Collision.checkAABB en.box pl.box = true then
        let dmg :=
          match pl.data with
          | EntityData.playerE plr => Player.takeDamage plr 10 env.now
          | _ => (Player.make 0 0, false)
        let st1 := setEntity st pid (fun e =>
          match e.data with
          | EntityData.playerE _ =>
              { e with data := EntityData.playerE dmg.1 }
          | _ => e)
        let st2 :=
          if dmg.2 = true then addParticles st1 (env.playerFx j)
          else st1
        let direction : Vec2 :=
          ⟨en.box.x + en.box.w / 2 - (pl.box.x + pl.box.w / 2),
           en.box.y + en.box.h / 2 - (pl.box.y + pl.box.h / 2)⟩
        let disp := env.knockbackDisp direction 30
        setEntity st2 j (fun e =>
          { e with
            data := e.data.withBox
              { e.data.box with
                x := e.data.box.x + disp.x,
                y := e.data.box.y + disp.y } })
      else st
  | _, _ => st

/-- Embeds `Game.checkCollisions` (src/core/Game.ts, lines 329-392) in
source order: snapshot the non-destroyed projectiles and enemies; resolve
entity-vs-wall collisions; projectile-vs-wall (destroy at the first
overlapping wall, poof particles); projectile-vs-enemy (skip
already-destroyed members, destroy the projectile, `Enemy.takeDamage(1)`,
hit particles, and on a kill award 10 score and a burst); enemy-vs-player
(skip destroyed enemies, `Player.takeDamage(10)` with hit particles when
the damage lands, then knock the enemy back away from the player). -/
def checkCollisions (s : GameState) (env : Env) : GameState :=
  let projectileIds := (s.entities.filter
      (fun (e : GEntity) => e.isProjectile && !e.destroyed)).map GEntity.id
  let enemyIds := (s.entities.filter
      (fun (e : GEntity) => e.isEnemy && !e.destroyed)).map GEntity.id
  let s1 := checkWallCollisions s
  let s2 := projectileIds.foldl (projWallStep env) s1
  let s3 := projectileIds.foldl (projEnemyStep env enemyIds) s2
  match s3.playerId with
  | none => s3
  | some pid =>
      match findEntity s3 pid with
      | none => s3
      | some pl0 =>
          if pl0.destroyed = true then s3
          else enemyIds.foldl (enemyPlayerStep env pid) s3

/-- Embeds `Game.gameLoop` (src/core/Game.ts, lines 261-279): compute the
clamped delta time, advance the stored timestamp, run the update step, then
— unless the game is over — the collision step.  Rendering and the input
end-of-frame reset carry no simulation state. -/
def gameLoop (s : GameState) (env : Env) (timestamp : ℚ) : GameState :=
  if s.running = false then s
  else
    let dt := deltaTime timestamp s.lastTimestamp
    let s1 := { s with lastTimestamp := timestamp }
    let s2 := update s1 env dt
    if s2.isGameOver = false then checkCollisions s2 env else s2

/-- Lemma: `checkGameOver` touches only the game-over flag and the particle list. -/
theorem checkGameOver_preserves (s : GameState) (env : Env) :
    (checkGameOver s env).entities = s.entities ∧
    (checkGameOver s env).entitiesToAdd = s.entitiesToAdd ∧
    (checkGameOver s env).entitiesToRemove = s.entitiesToRemove := by
  unfold checkGameOver
  repeat' split
  all_goals exact ⟨rfl, rfl, rfl⟩

/-- Lemma: `setEntity` never touches the pending-add buffer. -/
theorem setEntity_entitiesToAdd (s : GameState) (i : ℕ) (f : GEntity → GEntity) :
    (setEntity s i f).entitiesToAdd = s.entitiesToAdd := rfl

/-- Lemma: `addParticles` never touches the entity lists. -/
theorem addParticles_entities (s : GameState) (ps : List Particle) :
    (addParticles s ps).entities = s.entities ∧
    (addParticles s ps).entitiesToAdd = s.entitiesToAdd := ⟨rfl, rfl⟩

/-- In-place mutation by an id-preserving function leaves the id sequence of
the live collection unchanged. -/
theorem setEntity_ids (s : GameState) (i : ℕ) (f : GEntity → GEntity)
    (hf : ∀ e, (f e).id = e.id) :
    ((setEntity s i f).entities).map GEntity.id = (s.entities).map GEntity.id := by
  unfold setEntity
  simp only [List.map_map]
  apply List.map_congr_left
  intro e _
  by_cases hcase : e.id = i
  · simp [Function.comp_apply, hcase, hf]
  · simp [Function.comp_apply, hcase]

/-- A state predicate preserved by every step of a fold is preserved by the
fold. -/
theorem foldl_preserve {α : Type} (P : GameState → Prop)
    (f : GameState → α → GameState) (l : List α) (s : GameState)
    (h0 : P s) (hstep : ∀ st a, P st → P (f st a)) : P (l.foldl f s) := by
  induction l generalizing s with
  | nil => exact h0
  | cons a t ih => exact ih (f s a) (hstep s a h0)

/-- Lemma: `projWallStep` preserves the pending-add buffer and the id sequence of
the live collection. -/
theorem projWallStep_preserves (env : Env) (st : GameState) (i : ℕ) :
    (projWallStep env st i).entitiesToAdd = st.entitiesToAdd ∧
    ((projWallStep env st i).entities).map GEntity.id =
      (st.entities).map GEntity.id := by
  unfold projWallStep
  split
  · exact ⟨rfl, rfl⟩
  · split_ifs
    · exact ⟨rfl, setEntity_ids st i _ (fun e => rfl)⟩
    · exact ⟨rfl, rfl⟩

/-- Lemma: `projEnemyInner` preserves the pending-add buffer and the id sequence of
the live collection. -/
theorem projEnemyInner_preserves (env : Env) (i : ℕ) (st2 : GameState) (j : ℕ) :
    (projEnemyInner env i st2 j).entitiesToAdd = st2.entitiesToAdd ∧
    ((projEnemyInner env i st2 j).entities).map GEntity.id =
      (st2.entities).map GEntity.id := by
  have hf1 : ∀ e : GEntity,
      ((fun (e : GEntity) => { e with data := e.data.destroy }) e).id = e.id :=
    fun e => rfl
  have hf2 : ∀ e : GEntity, ((fun (e : GEntity) =>
      match e.data with
      | EntityData.enemyE enm b =>
          { e with data := EntityData.enemyE (Enemy.takeDamage enm 1) b }
      | _ => e) e).id = e.id := by
    intro e
    cases e
    dsimp only
    split <;> rfl
  unfold projEnemyInner
  repeat' first
    | split
    | dsimp only
  all_goals first
    | exact ⟨rfl, rfl⟩
    | · refine ⟨rfl, ?_⟩
        dsimp only [addParticles]
        rw [setEntity_ids _ _ _ hf2, setEntity_ids _ _ _ hf1]

/-- Lemma: `projEnemyStep` preserves the pending-add buffer and the id sequence of
the live collection. -/
theorem projEnemyStep_preserves (env : Env) (enemyIds : List ℕ)
    (st : GameState) (i : ℕ) :
    (projEnemyStep env enemyIds st i).entitiesToAdd = st.entitiesToAdd ∧
    ((projEnemyStep env enemyIds st i).entities).map GEntity.id =
      (st.entities).map GEntity.id := by
  unfold projEnemyStep
  split
  · exact ⟨rfl, rfl⟩
  · split_ifs
    · exact ⟨rfl, rfl⟩
    · exact foldl_preserve
        (fun st2 => st2.entitiesToAdd = st.entitiesToAdd ∧
          (st2.entities).map GEntity.id = (st.entities).map GEntity.id)
        (projEnemyInner env i) enemyIds st ⟨rfl, rfl⟩
        (fun st2 j hP =>
          ⟨((projEnemyInner_preserves env i st2 j).1).trans hP.1,
           ((projEnemyInner_preserves env i st2 j).2).trans hP.2⟩)

/-- Lemma: `enemyPlayerStep` preserves the pending-add buffer and the id sequence of
the live collection. -/
theorem enemyPlayerStep_preserves (env : Env) (pid : ℕ) (st : GameState)
    (j : ℕ) :
    (enemyPlayerStep env pid st j).entitiesToAdd = st.entitiesToAdd ∧
    ((enemyPlayerStep env pid st j).entities).map GEntity.id =
      (st.entities).map GEntity.id := by
  have hf3 : ∀ (p : Player) (e : GEntity), ((fun (e : GEntity) =>
      match e.data with
      | EntityData.playerE _ => { e with data := EntityData.playerE p }
      | _ => e) e).id = e.id := by
    intro p e
    cases e
    dsimp only
    split <;> rfl
  have hf4 : ∀ (v : Vec2) (e : GEntity), ((fun (e : GEntity) =>
      { e with
        data := e.data.withBox
          { e.data.box with
            x := e.data.box.x + v.x,
            y := e.data.box.y + v.y } }) e).id = e.id :=
    fun v e => rfl
  unfold enemyPlayerStep
  repeat' first
    | split
    | dsimp only
  all_goals first
    | exact ⟨rfl, rfl⟩
    | · refine ⟨rfl, ?_⟩
        dsimp only [addParticles]
        rw [setEntity_ids _ _ _ (hf4 _), setEntity_ids _ _ _ (hf3 _)]

/-- Lemma: `wallResolveStep` preserves the pending-add buffer and the id sequence
of the live collection. -/
theorem wallResolveStep_preserves (st : GameState) (i : ℕ) :
    (wallResolveStep st i).entitiesToAdd = st.entitiesToAdd ∧
    ((wallResolveStep st i).entities).map GEntity.id =
      (st.entities).map GEntity.id :=
  ⟨rfl, setEntity_ids st i _ (fun e => rfl)⟩

/-- Lemma: `checkWallCollisions` preserves the pending-add buffer and the id
sequence of the live collection. -/
theorem checkWallCollisions_preserves (s : GameState) :
    (checkWallCollisions s).entitiesToAdd = s.entitiesToAdd ∧
    ((checkWallCollisions s).entities).map GEntity.id =
      (s.entities).map GEntity.id := by
  unfold checkWallCollisions
  have hstep : ∀ st i,
      (st.entitiesToAdd = s.entitiesToAdd ∧
        (st.entities).map GEntity.id = (s.entities).map GEntity.id) →
      ((wallResolveStep st i).entitiesToAdd = s.entitiesToAdd ∧
        ((wallResolveStep st i).entities).map GEntity.id =
          (s.entities).map GEntity.id) :=
    fun st i hP =>
      ⟨((wallResolveStep_preserves st i).1).trans hP.1,
       ((wallResolveStep_preserves st i).2).trans hP.2⟩
  refine foldl_preserve
    (fun st => st.entitiesToAdd = s.entitiesToAdd ∧
      (st.entities).map GEntity.id = (s.entities).map GEntity.id)
    wallResolveStep _ _ ?_ hstep
  repeat' split
  all_goals first
    | exact ⟨rfl, rfl⟩
    | exact wallResolveStep_preserves s _

/-- The whole collision pass (`Game.checkCollisions`) preserves the
pending-add buffer and the id sequence of the live collection: it mutates
entities in place, emits particles and updates the score, but neither adds
nor removes entities. -/
theorem checkCollisions_preserves (s : GameState) (env : Env) :
    (checkCollisions s env).entitiesToAdd = s.entitiesToAdd ∧
    ((checkCollisions s env).entities).map GEntity.id =
      (s.entities).map GEntity.id := by
  unfold checkCollisions
  dsimp only
  set pids := (s.entities.filter
      (fun (e : GEntity) => e.isProjectile && !e.destroyed)).map GEntity.id
    with hpids
  set eids := (s.entities.filter
      (fun (e : GEntity) => e.isEnemy && !e.destroyed)).map GEntity.id
    with heids
  set s1 := checkWallCollisions s with hs1
  set s2 := List.foldl (projWallStep env) s1 pids with hs2
  set s3 := List.foldl (projEnemyStep env eids) s2 pids with hs3
  have hP1 : s1.entitiesToAdd = s.entitiesToAdd ∧
      (s1.entities).map GEntity.id = (s.entities).map GEntity.id := by
    rw [hs1]
    exact checkWallCollisions_preserves s
  have hP2 : s2.entitiesToAdd = s.entitiesToAdd ∧
      (s2.entities).map GEntity.id = (s.entities).map GEntity.id := by
    rw [hs2]
    exact foldl_preserve
      (fun st => st.entitiesToAdd = s.entitiesToAdd ∧
        (st.entities).map GEntity.id = (s.entities).map GEntity.id)
      (projWallStep env) pids s1 hP1
      (fun st a hP => ⟨((projWallStep_preserves env st a).1).trans hP.1,
        ((projWallStep_preserves env st a).2).trans hP.2⟩)
  have hP3 : s3.entitiesToAdd = s.entitiesToAdd ∧
      (s3.entities).map GEntity.id = (s.entities).map GEntity.id := by
    rw [hs3]
    exact foldl_preserve
      (fun st => st.entitiesToAdd = s.entitiesToAdd ∧
        (st.entities).map GEntity.id = (s.entities).map GEntity.id)
      (projEnemyStep env eids) pids s2 hP2
      (fun st a hP => ⟨((projEnemyStep_preserves env eids st a).1).trans hP.1,
        ((projEnemyStep_preserves env eids st a).2).trans hP.2⟩)
  split
  · exact hP3
  · split
    · exact hP3
    · split_ifs
      · exact hP3
      · exact foldl_preserve
          (fun st => st.entitiesToAdd = s.entitiesToAdd ∧
            (st.entities).map GEntity.id = (s.entities).map GEntity.id)
          (enemyPlayerStep env _) eids s3 hP3
          (fun st a hP =>
            ⟨((enemyPlayerStep_preserves env _ st a).1).trans hP.1,
             ((enemyPlayerStep_preserves env _ st a).2).trans hP.2⟩)

end Game

/-- C2 (amended): at the end of the update step — whose last action is the
compaction — the live entity collection contains no entity whose destroyed
flag is set, and the pending-remove set is cleared.  In the tick order of
`Game.gameLoop`, however, the collision-resolution step runs AFTER this
compaction (update first, `checkCollisions` second), so an entity flagged
destroyed during collision resolution of tick N stays in the live
collection through the end of tick N (see
`gameLoop_keeps_collision_destroyed`) and is removed only by tick N+1's
compaction; entities are never physically removed mid-pass. -/
theorem update_compacts_destroyed (s : GameState) (env : Env) (dt : ℚ)
    (hgo : s.isGameOver = false) :
    ∀ e ∈ (Game.update s env dt).entities, e.destroyed = false := by
  intro e he
  unfold Game.update at he
  rw [hgo] at he
  simp only [Bool.false_eq_true, if_false] at he
  have h2 := (List.mem_filter.mp he).2
  simp only [Bool.and_eq_true, Bool.not_eq_true'] at h2
  exact h2.1

/-- Embeds `Projectile.update` (src/entities/Projectile.ts, lines 24-32) on an
800×600 canvas, dispatched as the `updFn` of the demonstration environment:
integrate the velocity, then flag destruction when off-screen
(`Entity.isOffScreen`: beyond a margin of `max(width, height)` around the
canvas).  Player and enemy entities do not occur in the demonstration
scenario, so the dispatch leaves them unchanged. -/
def projOnlyUpdate (e : GEntity) (dt : ℚ) : GEntity × List GEntity :=
  match e.data with
  | EntityData.projectileE b vx vy d =>
      let b1 := { b with x := b.x + vx * dt, y := b.y + vy * dt }
      let margin := max b1.w b1.h
      let off := decide (b1.x < -margin) || decide (b1.y < -margin) ||
        decide (b1.x > 800 + margin) || decide (b1.y > 600 + margin)
      let nd := if off = true then true else d
      ({ e with data := EntityData.projectileE b1 vx vy nd }, [])
  | _ => (e, [])

/-- Concrete demonstration environment: the projectile dispatch above, no
pointer press, and concrete admissible particle outputs for the poof at a
wall impact (three scatter particles at the impact center). -/
def demoEnv : Env :=
  { updFn := projOnlyUpdate,
    now := 0,
    keyR := false,
    restart := fun st => st,
    wallFx := fun _ => [Particle.make 164 14 0 30 "#9ca3af",
      Particle.make 164 14 30 0 "#9ca3af",
      Particle.make 164 14 0 (-30) "#9ca3af"],
    hitFx := fun _ _ => [],
    killFx := fun _ => [],
    playerFx := fun _ => [],
    gameOverFx := [],
    knockbackDisp := fun _ _ => ⟨0, 0⟩ }

/-- Concrete running game state: a single live projectile flying rightwards
inside the top border wall of an 800×600 canvas. -/
def demoState : GameState :=
  { entities := [⟨1, EntityData.projectileE ⟨100, 10, 8, 8⟩ 600 0 false⟩],
    entitiesToAdd := [],
    entitiesToRemove := [],
    particles := [],
    walls := [⟨0, 0, 800, 20⟩],
    playerId := none,
    score := 0,
    isGameOver := false,
    running := true,
    lastTimestamp := 0 }

/-- C2 counterexample: one full tick (`Game.gameLoop`) on `demoState`.  The
update step's compaction runs first, then the collision step destroys the
projectile against the wall — so at the end of the tick the live collection
still contains the entity with its destroyed flag set, refuting the claim
that an entity flagged destroyed at any point during a tick is removed by
that same tick's compaction. -/
theorem gameLoop_keeps_collision_destroyed :
    ((Game.gameLoop demoState demoEnv 100).entities).map GEntity.destroyed =
      [true] := by
  norm_num [Game.gameLoop, Game.update, Game.checkGameOver,
    Game.checkCollisions, Game.checkWallCollisions, Game.wallResolveStep,
    Game.projWallStep, Game.projEnemyStep, Game.projEnemyInner,
    Game.enemyPlayerStep, Game.deltaTime, Game.findEntity, Game.setEntity,
    Game.addParticles, demoState, demoEnv, projOnlyUpdate, GEntity.destroyed,
    GEntity.box, GEntity.isProjectile, GEntity.isEnemy, EntityData.destroy,
    EntityData.box, EntityData.destroyed, Collision.checkAABB,
    Particle.update, Particle.make, List.filter, List.foldl, List.any,
    List.find?, decide_eq_true_eq]

/-- C2 witness: concrete run of `update_compacts_destroyed` — the one
entity in the live collection after the update step on `demoState` has its
destroyed flag clear. -/
theorem update_compacts_destroyed_witness :
    GEntity.destroyed ⟨1, EntityData.projectileE ⟨160, 10, 8, 8⟩ 600 0 false⟩ =
      false :=
  update_compacts_destroyed demoState demoEnv (1/10) rfl
    ⟨1, EntityData.projectileE ⟨160, 10, 8, 8⟩ 600 0 false⟩
    (by norm_num [Game.update, Game.checkGameOver, demoState, demoEnv,
      projOnlyUpdate, GEntity.destroyed, EntityData.destroyed,
      Particle.update, List.filter, decide_eq_true_eq])

/-- The update step of a tick processes exactly the flushed list
`updateIterates s = s.entities ++ s.entitiesToAdd`: the pending-add buffer
is flushed into the live collection first, `entity.update(dt)` is applied to
every non-destroyed member of that list and to nothing else, the entities
spawned during the pass are left in the pending buffer (in call order), and
the final compaction filters against the pre-step remove set. -/
theorem update_phase_spec (s : GameState) (env : Env) (dt : ℚ)
    (hgo : s.isGameOver = false) :
    (Game.update s env dt).entities =
      ((Game.updateIterates s).map
        (fun q => if q.destroyed = true then q else (env.updFn q dt).1)).filter
        (fun q => !q.destroyed && !(s.entitiesToRemove.contains q.id)) ∧
    (Game.update s env dt).entitiesToAdd =
      (Game.updateIterates s).flatMap
        (fun q => if q.destroyed = true then [] else (env.updFn q dt).2) := by
  unfold Game.update Game.updateIterates
  rw [hgo]
  simp only [Bool.false_eq_true, if_false]
  by_cases hlen : s.entitiesToAdd.length > 0
  · rw [if_pos hlen]
    rw [(Game.checkGameOver_preserves _ env).1,
      (Game.checkGameOver_preserves _ env).2.1,
      (Game.checkGameOver_preserves _ env).2.2]
    exact ⟨rfl, rfl⟩
  · rw [if_neg hlen]
    have h0 : s.entitiesToAdd = [] :=
      List.length_eq_zero.mp (Nat.eq_zero_of_not_pos hlen)
    rw [(Game.checkGameOver_preserves _ env).1,
      (Game.checkGameOver_preserves _ env).2.1,
      (Game.checkGameOver_preserves _ env).2.2, h0, List.append_nil]
    exact ⟨rfl, rfl⟩

/-- C8: `Game.addEntity` appends the entity only to the pending-add buffer,
never to the live collection directly; the update pass of a tick applies
`entity.update` exactly to the members of the flushed list, and entities
spawned during the pass accumulate in the pending buffer; and any entity
added during tick N (a fresh object, so its id differs from every entity
alive or pending at the start of the tick) is absent from the live
collection at the end of tick N — the update and collision passes, which
read only the live collection, never touched it — while belonging to the
list that tick N+1's update pass iterates after its opening flush. -/
theorem addEntity_pending_until_next_tick (s : GameState) (env : Env)
    (dt ts : ℚ) (e : GEntity) (hgo : s.isGameOver = false)
    (hrun : s.running = true)
    (hid : ∀ (q : GEntity) (dt' : ℚ), ((env.updFn q dt').1).id = q.id)
    (hfresh : ∀ (q : GEntity) (dt' : ℚ), ∀ p ∈ (env.updFn q dt').2,
      ∀ r ∈ Game.updateIterates s, p.id ≠ r.id) :
    ((Game.addEntity s e).entities = s.entities ∧
     (Game.addEntity s e).entitiesToAdd = s.entitiesToAdd ++ [e]) ∧
    ((Game.update s env dt).entities =
       ((Game.updateIterates s).map
         (fun q => if q.destroyed = true then q else (env.updFn q dt).1)).filter
         (fun q => !q.destroyed && !(s.entitiesToRemove.contains q.id)) ∧
     (Game.update s env dt).entitiesToAdd =
       (Game.updateIterates s).flatMap
         (fun q => if q.destroyed = true then [] else (env.updFn q dt).2)) ∧
    (∀ q ∈ (Game.gameLoop s env ts).entitiesToAdd,
       q.id ∉ ((Game.gameLoop s env ts).entities).map GEntity.id ∧
       q ∈ Game.updateIterates (Game.gameLoop s env ts)) := by
  refine ⟨⟨rfl, rfl⟩, update_phase_spec s env dt hgo, ?_⟩
  intro q hq
  set dt0 := Game.deltaTime ts s.lastTimestamp with hdt0
  set s1 : GameState := { s with lastTimestamp := ts } with hs1
  set s2 := Game.update s1 env dt0 with hs2
  have hgo1 : s1.isGameOver = false := hgo
  have hspec := update_phase_spec s1 env dt0 hgo1
  have hloop : Game.gameLoop s env ts =
      (if s2.isGameOver = false then Game.checkCollisions s2 env else s2) := by
    unfold Game.gameLoop
    rw [if_neg (by simp [hrun])]
  have htoAdd : s2.entitiesToAdd =
      (Game.updateIterates s).flatMap
        (fun r => if r.destroyed = true then [] else (env.updFn r dt0).2) :=
    hspec.2
  have hsub : ∀ x ∈ (s2.entities).map GEntity.id,
      x ∈ (Game.updateIterates s).map GEntity.id := by
    intro x hx
    rw [hspec.1] at hx
    obtain ⟨y, hy, rfl⟩ := List.mem_map.mp hx
    obtain ⟨z, hz, rfl⟩ := List.mem_map.mp (List.mem_filter.mp hy).1
    refine List.mem_map.mpr ⟨z, hz, ?_⟩
    by_cases hd : z.destroyed = true
    · rw [if_pos hd]
    · rw [if_neg hd]
      exact (hid z dt0).symm
  have hq' := hq
  rw [hloop] at hq'
  have hq2 : q ∈ s2.entitiesToAdd := by
    by_cases hgo2 : s2.isGameOver = false
    · rw [if_pos hgo2] at hq'
      rw [(Game.checkCollisions_preserves s2 env).1] at hq'
      exact hq'
    · rw [if_neg hgo2] at hq'
      exact hq'
  have hfr : ∀ r ∈ Game.updateIterates s, q.id ≠ r.id := by
    rw [htoAdd] at hq2
    obtain ⟨z, hz, hqz⟩ := List.mem_flatMap.mp hq2
    intro r hr
    by_cases hzd : z.destroyed = true
    · rw [if_pos hzd] at hqz
      exact absurd hqz (List.not_mem_nil q)
    · rw [if_neg hzd] at hqz
      exact hfresh z dt0 q hqz r hr
  constructor
  · intro hmem
    have hmem2 : q.id ∈ (s2.entities).map GEntity.id := by
      rw [hloop] at hmem
      by_cases hgo2 : s2.isGameOver = false
      · rw [if_pos hgo2, (Game.checkCollisions_preserves s2 env).2] at hmem
        exact hmem
      · rw [if_neg hgo2] at hmem
        exact hmem
    obtain ⟨r, hr, hrid⟩ := List.mem_map.mp (hsub _ hmem2)
    exact hfr r hr hrid.symm
  · show q ∈ (Game.gameLoop s env ts).entities ++
      (Game.gameLoop s env ts).entitiesToAdd
    exact List.mem_append_right _ hq

/-- C8 witness: concrete run of `addEntity_pending_until_next_tick` on the
demonstration state: the adding-only part of the conjunction at a concrete
fresh projectile. -/
theorem addEntity_pending_until_next_tick_witness :
    (Game.addEntity demoState
        ⟨2, EntityData.projectileE ⟨0, 300, 8, 8⟩ 0 600 false⟩).entities =
      demoState.entities ∧
    (Game.addEntity demoState
        ⟨2, EntityData.projectileE ⟨0, 300, 8, 8⟩ 0 600 false⟩).entitiesToAdd =
      demoState.entitiesToAdd ++
        [⟨2, EntityData.projectileE ⟨0, 300, 8, 8⟩ 0 600 false⟩] :=
  (addEntity_pending_until_next_tick demoState demoEnv (1/10) 100
    ⟨2, EntityData.projectileE ⟨0, 300, 8, 8⟩ 0 600 false⟩ rfl rfl
    (by
      intro p dt'
      cases hp : p.data <;> simp [demoEnv, projOnlyUpdate, hp])
    (by
      intro p dt' r hr
      exfalso
      cases hp : p.data <;> simp [demoEnv, projOnlyUpdate, hp] at hr)).1

end CanvasCrawler
